import Mathlib

set_option maxRecDepth 100000

/-!
Verification of the `aurora` invitation service
(`aurora-be/services/invitation_service.py`) against its design document.

The development shallowly embeds the service: the database session becomes an
explicit list of invitation rows, `datetime.now(timezone.utc)` becomes an
explicit integer clock argument (seconds), `secrets.token_urlsafe` becomes an
explicit entropy-byte argument encoded with base64url, `uuid4` becomes an
explicit fresh-identifier argument, and `hashlib.sha256(..).hexdigest()` is
implemented bit-for-bit (FIPS 180-4) over UTF-8 bytes.  Each service method is
a pure function from a database value (plus its oracle arguments) to a result
together with the committed database value; Python `raise ValueError` sites
become typed error values following the design document's error taxonomy,
with extra constructors for the untyped failures Python can produce.
-/

namespace Aurora

/-- Python `str.lower()` restricted to ASCII case mapping (all emails and
status values manipulated by the service are ASCII). -/
def pyLower (s : String) : String := String.mk (s.data.map Char.toLower)

/-- UTF-8 encoding of one character, as Python `str.encode("utf-8")` yields. -/
def utf8Bytes (c : Char) : List Nat :=
  let n := c.toNat
  if n < 128 then [n]
  else if n < 2048 then [192 + n / 64, 128 + n % 64]
  else if n < 65536 then [224 + n / 4096, 128 + n / 64 % 64, 128 + n % 64]
  else [240 + n / 262144, 128 + n / 4096 % 64, 128 + n / 64 % 64, 128 + n % 64]

/-- UTF-8 bytes of a string. -/
def strToBytes (s : String) : List Nat := s.data.flatMap utf8Bytes

/-! ### SHA-256 (FIPS 180-4), the algorithm behind `hashlib.sha256` -/

/-- Truncation to a 32-bit word. -/
def w32 (x : Nat) : Nat := x % 4294967296

/-- Right rotation of a 32-bit word by `n` places. -/
def rotr (n x : Nat) : Nat := w32 ((x >>> n) ||| (x <<< (32 - n)))

/-- The 64 SHA-256 round constants (FIPS 180-4 sec 4.2.2), in decimal. -/
def shaK : List Nat :=
  [1116352408, 1899447441, 3049323471, 3921009573, 961987163,
   1508970993, 2453635748, 2870763221, 3624381080, 310598401,
   607225278, 1426881987, 1925078388, 2162078206, 2614888103,
   3248222580, 3835390401, 4022224774, 264347078, 604807628,
   770255983, 1249150122, 1555081692, 1996064986, 2554220882,
   2821834349, 2952996808, 3210313671, 3336571891, 3584528711,
   113926993, 338241895, 666307205, 773529912, 1294757372,
   1396182291, 1695183700, 1986661051, 2177026350, 2456956037,
   2730485921, 2820302411, 3259730800, 3345764771, 3516065817,
   3600352804, 4094571909, 275423344, 430227734, 506948616,
   659060556, 883997877, 958139571, 1322822218, 1537002063,
   1747873779, 1955562222, 2024104815, 2227730452, 2361852424,
   2428436474, 2756734187, 3204031479, 3329325298]

/-- The eight-word SHA-256 working state. -/
structure Sha8 where
  a : Nat
  b : Nat
  c : Nat
  d : Nat
  e : Nat
  f : Nat
  g : Nat
  h : Nat
deriving DecidableEq

/-- The SHA-256 initial hash value (FIPS 180-4 sec 5.3.3), in decimal. -/
def shaInit : Sha8 :=
  ⟨1779033703, 3144134277, 1013904242, 2773480762,
   1359893119, 2600822924, 528734635, 1541459225⟩

/-- One SHA-256 compression round with round constant `k` and schedule word `w`. -/
def shaRound (st : Sha8) (k w : Nat) : Sha8 :=
  let s1 := (rotr 6 st.e) ^^^ (rotr 11 st.e) ^^^ (rotr 25 st.e)
  let ch := (st.e &&& st.f) ^^^ ((4294967295 - st.e) &&& st.g)
  let temp1 := w32 (st.h + s1 + ch + k + w)
  let s0 := (rotr 2 st.a) ^^^ (rotr 13 st.a) ^^^ (rotr 22 st.a)
  let maj := (st.a &&& st.b) ^^^ (st.a &&& st.c) ^^^ (st.b &&& st.c)
  let temp2 := w32 (s0 + maj)
  ⟨w32 (temp1 + temp2), st.a, st.b, st.c, w32 (st.d + temp1), st.e, st.f, st.g⟩

/-- Run the 64 rounds, consuming constants and schedule words in lockstep. -/
def shaRounds : List Nat → List Nat → Sha8 → Sha8
  | k :: ks, w :: ws, st => shaRounds ks ws (shaRound st k w)
  | _, _, st => st

/-- Small sigma 0 of the message schedule. -/
def ssig0 (x : Nat) : Nat := (rotr 7 x) ^^^ (rotr 18 x) ^^^ (x >>> 3)

/-- Small sigma 1 of the message schedule. -/
def ssig1 (x : Nat) : Nat := (rotr 17 x) ^^^ (rotr 19 x) ^^^ (x >>> 10)

/-- Append the next message-schedule word to an existing schedule. -/
def schedStep (w : List Nat) : List Nat :=
  let n := w.length
  w ++ [w32 (ssig1 (w.getD (n - 2) 0) + w.getD (n - 7) 0 +
             ssig0 (w.getD (n - 15) 0) + w.getD (n - 16) 0)]

/-- Iterate `schedStep`. -/
def schedExtend : Nat → List Nat → List Nat
  | 0, w => w
  | n + 1, w => schedExtend n (schedStep w)

/-- Big-endian 32-bit words from a byte list. -/
def bytesToWords : List Nat → List Nat
  | b1 :: b2 :: b3 :: b4 :: rest =>
      (b1 * 16777216 + b2 * 65536 + b3 * 256 + b4) :: bytesToWords rest
  | _ => []

/-- The eight-byte big-endian encoding of the bit length of an `L`-byte message. -/
def shaLenBytes (L : Nat) : List Nat :=
  let b := 8 * L
  [b / 2 ^ 56 % 256, b / 2 ^ 48 % 256, b / 2 ^ 40 % 256, b / 2 ^ 32 % 256,
   b / 2 ^ 24 % 256, b / 2 ^ 16 % 256, b / 2 ^ 8 % 256, b % 256]

/-- SHA-256 padding: a `0x80` byte, zeros to 56 mod 64, then the bit length. -/
def padMessage (msg : List Nat) : List Nat :=
  let r := (msg.length + 1) % 64
  msg ++ [128] ++ List.replicate ((120 - r) % 64) 0 ++ shaLenBytes msg.length

/-- Compress one 64-byte block into the running hash state. -/
def compressBlock (st : Sha8) (block : List Nat) : Sha8 :=
  let w := schedExtend 48 (bytesToWords block)
  let e := shaRounds shaK w st
  ⟨w32 (st.a + e.a), w32 (st.b + e.b), w32 (st.c + e.c), w32 (st.d + e.d),
   w32 (st.e + e.e), w32 (st.f + e.f), w32 (st.g + e.g), w32 (st.h + e.h)⟩

/-- Split a byte list into 64-byte blocks; `fuel` bounds the number of blocks
(structural recursion so the kernel can evaluate hashes). -/
def chunks64Go : Nat → List Nat → List (List Nat)
  | 0, _ => []
  | _ + 1, [] => []
  | n + 1, l => l.take 64 :: chunks64Go n (l.drop 64)

/-- Split a byte list into 64-byte blocks. -/
def chunks64 (l : List Nat) : List (List Nat) := chunks64Go l.length l

/-- Lowercase hexadecimal digit. -/
def hexDigit (n : Nat) : Char :=
  "0123456789abcdef".data.getD n '0'

/-- Eight lowercase hex characters of a 32-bit word, most significant first. -/
def wordHex (w : Nat) : List Char :=
  [hexDigit (w / 16 ^ 7 % 16), hexDigit (w / 16 ^ 6 % 16),
   hexDigit (w / 16 ^ 5 % 16), hexDigit (w / 16 ^ 4 % 16),
   hexDigit (w / 16 ^ 3 % 16), hexDigit (w / 16 ^ 2 % 16),
   hexDigit (w / 16 % 16), hexDigit (w % 16)]

/-- `hashlib.sha256(s.encode("utf-8")).hexdigest()`. -/
def sha256Hex (s : String) : String :=
  let st := (chunks64 (padMessage (strToBytes s))).foldl compressBlock shaInit
  String.mk (wordHex st.a ++ wordHex st.b ++ wordHex st.c ++ wordHex st.d ++
             wordHex st.e ++ wordHex st.f ++ wordHex st.g ++ wordHex st.h)

example : sha256Hex "abc" =
    "ba7816bf8f01cfea414140de5dae2223b00361a396177a9cb410ff61f20015ad" := by decide

example : sha256Hex "" =
    "e3b0c44298fc1c149afbf4c8996fb92427ae41e4649b934ca495991b7852b855" := by decide

/-! ### `secrets.token_urlsafe`: URL-safe base64 without padding -/

/-- The URL-safe base64 alphabet (RFC 4648 §5). -/
def b64Char (n : Nat) : Char :=
  "ABCDEFGHIJKLMNOPQRSTUVWXYZabcdefghijklmnopqrstuvwxyz0123456789-_".data.getD n 'A'

/-- URL-safe base64 of a byte list with the `=` padding stripped, exactly what
`base64.urlsafe_b64encode(b).rstrip(b"=")` produces. -/
def base64urlNoPad : List Nat → List Char
  | [] => []
  | [b1] => [b64Char (b1 / 4), b64Char (b1 % 4 * 16)]
  | [b1, b2] =>
      [b64Char (b1 / 4), b64Char (b1 % 4 * 16 + b2 / 16), b64Char (b2 % 16 * 4)]
  | b1 :: b2 :: b3 :: rest =>
      b64Char (b1 / 4) :: b64Char (b1 % 4 * 16 + b2 / 16) ::
      b64Char (b2 % 16 * 4 + b3 / 64) :: b64Char (b3 % 64) :: base64urlNoPad rest

/-! ### Configuration (`config.py`) -/

/-- `AuroraConfig`, with the defaults from `config.py` (no environment
overrides in scope). -/
structure AuroraConfig where
  invitation_expiry_days : Int
  token_length : Nat
  max_page_size : Int
  default_page_size : Int

/-- The module-level `aurora_config` instance. -/
def aurora_config : AuroraConfig :=
  { invitation_expiry_days := 7, token_length := 32,
    max_page_size := 100, default_page_size := 50 }

/-- `timedelta(days = d)` measured in seconds. -/
def days (d : Int) : Int := d * 86400

/-! ### Data model (`models/invitation.py`) -/

/-- The invitation status enumeration. -/
inductive InvitationStatus
  | PENDING
  | ACCEPTED
  | EXPIRED
  | REVOKED
deriving DecidableEq

/-- The `.value` string of each status member (it is a `str` enum). -/
def InvitationStatus.value : InvitationStatus → String
  | .PENDING => "PENDING"
  | .ACCEPTED => "ACCEPTED"
  | .EXPIRED => "EXPIRED"
  | .REVOKED => "REVOKED"

/-- One row of `aurora_invitations`.  Identifiers (UUID columns) are abstract
naturals, timestamps are integer seconds.  Note the row holds the token only
as `token_hash`; there is no raw-token column. -/
structure Invitation where
  id : Nat
  email : String
  name : Option String
  tenant_id : Nat
  client_ids : Option (List Nat)
  role_group_ids : Option (List Nat)
  status : InvitationStatus
  invited_by : Nat
  token_hash : String
  created_at : Int
  expires_at : Int
  accepted_at : Option Int
  revoked_at : Option Int
  revoked_by : Option Nat
  deleted_at : Option Int
  message : Option String
deriving DecidableEq

/-- The database session: the committed list of invitation rows. -/
abbrev DB := List Invitation

/-! ### Errors

The service raises `ValueError` at six distinct sites; the design document
classifies them into the taxonomy Conflict / NotFound / InvalidState /
Expired.  `zeroDivision` models Python's untyped `ZeroDivisionError` and
`negativeStoreArg` the store rejecting a negative OFFSET/LIMIT — neither is
part of the documented taxonomy. -/
inductive ServiceError
  | conflict (msg : String)
  | notFound (msg : String)
  | invalidState (msg : String)
  | expired (msg : String)
  | zeroDivision
  | negativeStoreArg
deriving DecidableEq

deriving instance DecidableEq for Except

/-- Whether an error belongs to the documented error taxonomy. -/
def ServiceError.documented : ServiceError → Bool
  | .conflict _ => true
  | .notFound _ => true
  | .invalidState _ => true
  | .expired _ => true
  | .zeroDivision => false
  | .negativeStoreArg => false

/-! ### `InvitationService` queries -/

/-- `InvitationService.generate_token`: `secrets.token_urlsafe(token_length)`
applied to the given entropy bytes. -/
def generate_token (entropy : List Nat) : String :=
  String.mk (base64urlNoPad entropy)

/-- `InvitationService.hash_token`: SHA-256 hex digest of the UTF-8 token. -/
def hash_token (token : String) : String := sha256Hex token

/-- `deleted_at IS NULL`. -/
def notDeleted (i : Invitation) : Bool := i.deleted_at == none

/-- `InvitationService.get`: lookup by id, scoped to tenant, excluding
soft-deleted rows (`scalar_one_or_none` on a unique primary key). -/
def get (db : DB) (invitation_id tenant_id : Nat) : Option Invitation :=
  db.find? (fun i => i.id == invitation_id && i.tenant_id == tenant_id && notDeleted i)

/-- `InvitationService.get_by_token`: hash the raw token and look the hash up,
excluding soft-deleted rows. -/
def get_by_token (db : DB) (token : String) : Option Invitation :=
  let token_hash := hash_token token
  db.find? (fun i => i.token_hash == token_hash && notDeleted i)

/-- `InvitationService._get_pending_by_email`: pending invitation for the
lowercased email within the tenant, excluding soft-deleted rows. -/
def get_pending_by_email (db : DB) (email : String) (tenant_id : Nat) :
    Option Invitation :=
  db.find? (fun i => i.email == pyLower email && i.tenant_id == tenant_id &&
                     i.status == InvitationStatus.PENDING && notDeleted i)

/-- Commit an in-place mutation of the row with primary key `rowId`. -/
def updateRow (db : DB) (rowId : Nat) (f : Invitation → Invitation) : DB :=
  db.map (fun i => if i.id == rowId then f i else i)

/-! ### `InvitationService` mutations -/

/-- `InvitationService.create`.  `now` is the clock, `entropy` the random
bytes drawn by `secrets.token_urlsafe`, `newId` the `uuid4` value. -/
def create (db : DB) (now : Int) (entropy : List Nat) (newId : Nat)
    (email : String) (tenant_id invited_by : Nat) (name : Option String)
    (client_ids role_group_ids : Option (List Nat)) (message : Option String) :
    Except ServiceError (Invitation × String) × DB :=
  match get_pending_by_email db email tenant_id with
  | some _ =>
      (Except.error (.conflict ("Pending invitation already exists for " ++ email)), db)
  | none =>
      let raw_token := generate_token entropy
      let token_hash := hash_token raw_token
      let expires_at := now + days aurora_config.invitation_expiry_days
      let invitation : Invitation :=
        { id := newId, email := pyLower email, name := name, tenant_id := tenant_id,
          client_ids := client_ids, role_group_ids := role_group_ids,
          status := InvitationStatus.PENDING, invited_by := invited_by,
          token_hash := token_hash, created_at := now, expires_at := expires_at,
          accepted_at := none, revoked_at := none, revoked_by := none,
          deleted_at := none, message := message }
      (Except.ok (invitation, raw_token), db ++ [invitation])

/-- `InvitationService.accept`.  The signature carries no tenant: acceptance is
token-scoped.  `user_id` is unused by the service body (the membership
assignment is delegated to the caller). -/
def accept (db : DB) (now : Int) (token : String) (_user_id : Nat) :
    Except ServiceError Invitation × DB :=
  match get_by_token db token with
  | none => (Except.error (.notFound "Invalid invitation token"), db)
  | some invitation =>
      if invitation.status ≠ InvitationStatus.PENDING then
        (Except.error (.invalidState ("Invitation is " ++ pyLower invitation.status.value)), db)
      else if invitation.expires_at < now then
        (Except.error (.expired "Invitation has expired"),
         updateRow db invitation.id (fun i => { i with status := InvitationStatus.EXPIRED }))
      else
        (Except.ok { invitation with status := InvitationStatus.ACCEPTED,
                                     accepted_at := some now },
         updateRow db invitation.id
           (fun i => { i with status := InvitationStatus.ACCEPTED, accepted_at := some now }))

/-- `InvitationService.revoke`. -/
def revoke (db : DB) (now : Int) (invitation_id tenant_id revoked_by : Nat) :
    Except ServiceError Invitation × DB :=
  match get db invitation_id tenant_id with
  | none => (Except.error (.notFound "Invitation not found"), db)
  | some invitation =>
      if invitation.status ≠ InvitationStatus.PENDING then
        (Except.error (.invalidState
          ("Cannot revoke " ++ pyLower invitation.status.value ++ " invitation")), db)
      else
        (Except.ok { invitation with status := InvitationStatus.REVOKED,
                                     revoked_at := some now, revoked_by := some revoked_by },
         updateRow db invitation.id
           (fun i => { i with status := InvitationStatus.REVOKED,
                              revoked_at := some now, revoked_by := some revoked_by }))

/-- `InvitationService.resend`. -/
def resend (db : DB) (now : Int) (entropy : List Nat) (invitation_id tenant_id : Nat) :
    Except ServiceError (Invitation × String) × DB :=
  match get db invitation_id tenant_id with
  | none => (Except.error (.notFound "Invitation not found"), db)
  | some invitation =>
      if invitation.status ≠ InvitationStatus.PENDING then
        (Except.error (.invalidState
          ("Cannot resend " ++ pyLower invitation.status.value ++ " invitation")), db)
      else
        let raw_token := generate_token entropy
        (Except.ok ({ invitation with
                        token_hash := hash_token raw_token,
                        expires_at := now + days aurora_config.invitation_expiry_days },
                    raw_token),
         updateRow db invitation.id
           (fun i => { i with token_hash := hash_token raw_token,
                              expires_at := now + days aurora_config.invitation_expiry_days }))

/-- The sweep predicate of `expire_old_invitations`. -/
def expireMatch (now : Int) (i : Invitation) : Bool :=
  i.status == InvitationStatus.PENDING && decide (i.expires_at < now) && notDeleted i

/-- `InvitationService.expire_old_invitations`: batch-expire every PENDING,
past-expiry, non-deleted row; return how many changed. -/
def expire_old_invitations (db : DB) (now : Int) : Nat × DB :=
  ((db.filter (expireMatch now)).length,
   db.map (fun i => if expireMatch now i then { i with status := InvitationStatus.EXPIRED } else i))

/-! ### `InvitationService.list` -/

/-- `schemas.InvitationFilter` (all clauses optional). -/
structure InvitationFilter where
  status : Option InvitationStatus
  email : Option String
  created_after : Option Int
  created_before : Option Int
  invited_by : Option Nat
deriving DecidableEq

/-- `haystack` starts with `needle`. -/
def listStartsWith : List Char → List Char → Bool
  | _, [] => true
  | [], _ :: _ => false
  | h :: hs, p :: ps => h == p && listStartsWith hs ps

/-- `needle` occurs contiguously inside `haystack` (SQL `LIKE '%needle%'`). -/
def listContains : List Char → List Char → Bool
  | hay, pat =>
    listStartsWith hay pat ||
      match hay with
      | [] => false
      | _ :: hs => listContains hs pat

/-- `_apply_filters`: the conjunction of the provided clauses.  A Python-falsy
clause value (`None`, and the empty string for `email`) is skipped; `ilike`
with surrounding wildcards is a case-insensitive substring test; the
`created_at` bounds are inclusive. -/
def filterCond (f : InvitationFilter) (i : Invitation) : Bool :=
  (match f.status with
   | some s => i.status == s
   | none => true) &&
  (match f.email with
   | some e => if e = "" then true else listContains (pyLower i.email).data (pyLower e).data
   | none => true) &&
  (match f.created_after with
   | some t => decide (t ≤ i.created_at)
   | none => true) &&
  (match f.created_before with
   | some t => decide (i.created_at ≤ t)
   | none => true) &&
  (match f.invited_by with
   | some u => i.invited_by == u
   | none => true)

/-- The pre-pagination result set of `list`: tenant-scoped, soft-deletes
excluded, optional filter applied. -/
def baseRows (db : DB) (tenant_id : Nat) (filt : Option InvitationFilter) :
    List Invitation :=
  (db.filter (fun i => i.tenant_id == tenant_id && notDeleted i)).filter
    (fun i => match filt with
              | some f => filterCond f i
              | none => true)

/-- Insert into a list already sorted by `created_at` descending. -/
def insertByCreatedDesc (x : Invitation) : List Invitation → List Invitation
  | [] => [x]
  | y :: ys =>
      if decide (y.created_at < x.created_at) then x :: y :: ys
      else y :: insertByCreatedDesc x ys

/-- A stable sort by `created_at` descending: one realization of the query's
`ORDER BY created_at DESC` (the store is free to pick any such realization;
see `OrderByCreatedDesc` for the full nondeterministic contract). -/
def sortByCreatedDesc : List Invitation → List Invitation
  | [] => []
  | x :: xs => insertByCreatedDesc x (sortByCreatedDesc xs)

/-- The store's contract for `ORDER BY created_at DESC`: any permutation of
the result set that is sorted by `created_at` descending.  Rows with equal
`created_at` may come back in any order, and differently on different calls. -/
def OrderByCreatedDesc (rows ord : List Invitation) : Prop :=
  ord.Perm rows ∧ ord.Pairwise (fun a b => b.created_at ≤ a.created_at)

/-- Line 150: `page_size = min(page_size, aurora_config.max_page_size)`. -/
def effPageSize (page_size : Int) : Int := min page_size aurora_config.max_page_size

/-- Line 151: `page = max(page, 1)`. -/
def effPage (page : Int) : Int := max page 1

/-- Line 174: `offset = (page - 1) * page_size` after clamping. -/
def listOffset (page page_size : Int) : Int :=
  (effPage page - 1) * effPageSize page_size

/-- One page of an ordered result set under the clamped page arithmetic. -/
def pageItems (ord : List Invitation) (page page_size : Int) : List Invitation :=
  (ord.drop (listOffset page page_size).toNat).take (effPageSize page_size).toNat

/-- `schemas.InvitationList`. -/
structure InvitationList where
  items : List Invitation
  total : Int
  page : Int
  page_size : Int
  pages : Int
deriving DecidableEq

/-- `InvitationService.list`.  Clamps, counts, paginates, then computes the
page count `(total + page_size - 1) // page_size` (Python floor division) when
`total > 0` and `0` otherwise.  A zero effective page size with a non-empty
result set hits Python's `ZeroDivisionError`; a negative effective page size
or offset is rejected by the store's OFFSET/LIMIT — both modelled as the
untyped errors they are.  The deterministic `sortByCreatedDesc` realization of
the ordering is used; ordering-sensitive statements quantify over
`OrderByCreatedDesc` instead. -/
def list (db : DB) (tenant_id : Nat) (filt : Option InvitationFilter)
    (page page_size : Int) : Except ServiceError InvitationList :=
  let ps := effPageSize page_size
  let pg := effPage page
  let rows := sortByCreatedDesc (baseRows db tenant_id filt)
  let total : Int := rows.length
  let offset := (pg - 1) * ps
  if ps < 0 ∨ offset < 0 then Except.error .negativeStoreArg
  else
    let items := (rows.drop offset.toNat).take ps.toNat
    if 0 < total ∧ ps = 0 then Except.error .zeroDivision
    else
      Except.ok { items := items, total := total, page := pg, page_size := ps,
                  pages := if 0 < total then (total + ps - 1).fdiv ps else 0 }

/-! ### Operation traces -/

/-- One invocation of a state-mutating service operation, with its oracle
arguments (clock, entropy, fresh id) frozen in. -/
inductive Op
  | createOp (now : Int) (entropy : List Nat) (newId : Nat) (email : String)
      (tenant_id invited_by : Nat) (name : Option String)
      (client_ids role_group_ids : Option (List Nat)) (message : Option String)
  | acceptOp (now : Int) (token : String) (user_id : Nat)
  | revokeOp (now : Int) (invitation_id tenant_id revoked_by : Nat)
  | resendOp (now : Int) (entropy : List Nat) (invitation_id tenant_id : Nat)
  | expireOp (now : Int)

/-- The committed database after one operation. -/
def applyOp (db : DB) : Op → DB
  | .createOp now e nid em t ib nm ci rg msg => (create db now e nid em t ib nm ci rg msg).2
  | .acceptOp now tok uid => (accept db now tok uid).2
  | .revokeOp now iid t rb => (revoke db now iid t rb).2
  | .resendOp now e iid t => (resend db now e iid t).2
  | .expireOp now => (expire_old_invitations db now).2

/-- The committed database after a sequence of operations. -/
def applyOps (db : DB) : List Op → DB
  | [] => db
  | op :: ops => applyOps (applyOp db op) ops

/-- Primary keys are unique (the store's primary-key constraint). -/
def NodupIds (db : DB) : Prop := (db.map (fun i => i.id)).Nodup

/-- A `uuid4` draw never collides with an existing primary key. -/
def opFresh (db : DB) : Op → Prop
  | .createOp _ _ nid _ _ _ _ _ _ _ => nid ∉ db.map (fun i => i.id)
  | _ => True

/-- Along the trace, every `create` draws a fresh id. -/
inductive FreshTrace : DB → List Op → Prop
  | nil (db : DB) : FreshTrace db []
  | cons (db : DB) (op : Op) (ops : List Op) :
      opFresh db op → FreshTrace (applyOp db op) ops → FreshTrace db (op :: ops)

/-! ### Supporting lemmas -/

theorem mem_updateRow_of_id_ne {db : DB} {rid : Nat} {f : Invitation → Invitation}
    {inv : Invitation} (hm : inv ∈ db) (hne : inv.id ≠ rid) :
    inv ∈ updateRow db rid f := by
  unfold updateRow
  exact List.mem_map.mpr ⟨inv, hm, by simp [hne]⟩

theorem eq_of_mem_of_id_eq {db : DB} (hN : NodupIds db) {a b : Invitation}
    (ha : a ∈ db) (hb : b ∈ db) (hid : a.id = b.id) : a = b :=
  List.inj_on_of_nodup_map hN ha hb hid

theorem find?_map_of_pred_eq {l : List Invitation} (g : Invitation → Invitation)
    (p : Invitation → Bool) (hp : ∀ x, p (g x) = p x) :
    (l.map g).find? p = (l.find? p).map g := by
  induction l with
  | nil => rfl
  | cons x xs ih =>
      rw [List.map_cons, List.find?_cons, List.find?_cons, hp x]
      cases hx : p x
      · simpa using ih
      · rfl

theorem insertByCreatedDesc_length (x : Invitation) (l : List Invitation) :
    (insertByCreatedDesc x l).length = l.length + 1 := by
  induction l with
  | nil => rfl
  | cons y ys ih =>
      rw [insertByCreatedDesc]
      split
      · simp
      · simp [ih]

theorem sortByCreatedDesc_length (l : List Invitation) :
    (sortByCreatedDesc l).length = l.length := by
  induction l with
  | nil => rfl
  | cons x xs ih =>
      rw [sortByCreatedDesc, insertByCreatedDesc_length, ih]
      rfl

theorem sha256Hex_length (s : String) : (sha256Hex s).length = 64 := by
  unfold sha256Hex wordHex
  simp [String.length]

theorem base64urlNoPad_length (l : List Nat) :
    (base64urlNoPad l).length = (l.length * 4 + 2) / 3 := by
  induction l using base64urlNoPad.induct
  · rfl
  · rw [base64urlNoPad]
    simp
  · rw [base64urlNoPad]
    simp
  · rename_i b1 b2 b3 rest ih
    rw [base64urlNoPad]
    simp only [List.length_cons, ih]
    omega

theorem generate_token_length {entropy : List Nat}
    (h : entropy.length = aurora_config.token_length) :
    (generate_token entropy).length = 43 := by
  show (base64urlNoPad entropy).length = 43
  rw [base64urlNoPad_length, h]
  rfl

/-! ### The claims -/

/-- C2: accepting the valid token of a PENDING invitation whose `expires_at`
lies before the clock commits the transition to EXPIRED and only then fails
with the `Expired` error — a side-effecting failure, after which every row
carrying that invitation's primary key is EXPIRED. -/
theorem accept_expired_persists_then_fails
    (db : DB) (now : Int) (token : String) (user_id : Nat) (inv : Invitation)
    (hfind : get_by_token db token = some inv)
    (hp : inv.status = InvitationStatus.PENDING)
    (hexp : inv.expires_at < now) :
    accept db now token user_id =
      (Except.error (ServiceError.expired "Invitation has expired"),
       updateRow db inv.id (fun i => { i with status := InvitationStatus.EXPIRED })) ∧
    { inv with status := InvitationStatus.EXPIRED } ∈ (accept db now token user_id).2 ∧
    (∀ r ∈ (accept db now token user_id).2, r.id = inv.id →
       r.status = InvitationStatus.EXPIRED) := by
  have h1 : accept db now token user_id =
      (Except.error (ServiceError.expired "Invitation has expired"),
       updateRow db inv.id (fun i => { i with status := InvitationStatus.EXPIRED })) := by
    unfold accept
    rw [hfind]
    simp [hp, hexp]
  have hmem : inv ∈ db := List.mem_of_find?_eq_some hfind
  refine ⟨h1, ?_, ?_⟩
  · rw [h1]
    exact List.mem_map.mpr ⟨inv, hmem, by simp⟩
  · rw [h1]
    intro r hr hid
    rcases List.mem_map.mp hr with ⟨p, _, hpe⟩
    by_cases hc : p.id = inv.id
    · rw [← hpe]
      simp [hc]
    · rw [← hpe] at hid
      simp [hc] at hid

/-- C3: on an invitation whose status is not PENDING, `accept`, `revoke` and
`resend` each fail with the `InvalidState` error whose message carries the
lowercased current status, and commit no change at all to the database. -/
theorem non_pending_operations_fail_without_mutation
    (db : DB) (now1 now2 now3 : Int) (token : String) (user_id : Nat)
    (invitation_id tenant_id revoked_by : Nat) (entropy : List Nat)
    (inv : Invitation) (hs : inv.status ≠ InvitationStatus.PENDING) :
    (get_by_token db token = some inv →
      accept db now1 token user_id =
        (Except.error (ServiceError.invalidState
          ("Invitation is " ++ pyLower inv.status.value)), db)) ∧
    (get db invitation_id tenant_id = some inv →
      revoke db now2 invitation_id tenant_id revoked_by =
        (Except.error (ServiceError.invalidState
          ("Cannot revoke " ++ pyLower inv.status.value ++ " invitation")), db)) ∧
    (get db invitation_id tenant_id = some inv →
      resend db now3 entropy invitation_id tenant_id =
        (Except.error (ServiceError.invalidState
          ("Cannot resend " ++ pyLower inv.status.value ++ " invitation")), db)) := by
  refine ⟨fun h => ?_, fun h => ?_, fun h => ?_⟩
  · unfold accept
    rw [h]
    simp [hs]
  · unfold revoke
    rw [h]
    simp [hs]
  · unfold resend
    rw [h]
    simp [hs]

theorem applyOp_preserves_nonpending {db : DB} (op : Op) (hN : NodupIds db)
    {inv : Invitation} (hm : inv ∈ db) (hs : inv.status ≠ InvitationStatus.PENDING) :
    inv ∈ applyOp db op := by
  cases op with
  | createOp now e nid em t ib nm ci rg msg =>
      simp only [applyOp]
      unfold create
      cases hpe : get_pending_by_email db em t with
      | some v =>
          simpa using hm
      | none =>
          simp only
          exact List.mem_append.mpr (Or.inl hm)
  | acceptOp now tok uid =>
      simp only [applyOp]
      unfold accept
      cases hf : get_by_token db tok with
      | none =>
          simpa using hm
      | some v =>
          by_cases hv : v.status = InvitationStatus.PENDING
          · have hvm : v ∈ db := List.mem_of_find?_eq_some hf
            have hne : inv.id ≠ v.id := fun h =>
              hs (by rw [eq_of_mem_of_id_eq hN hm hvm h]; exact hv)
            by_cases hex : v.expires_at < now
            · simp only [hv, hex]
              simp
              exact mem_updateRow_of_id_ne hm hne
            · simp only [hv, hex]
              simp
              exact mem_updateRow_of_id_ne hm hne
          · simp [hv]
            exact hm
  | revokeOp now iid t rb =>
      simp only [applyOp]
      unfold revoke
      cases hf : get db iid t with
      | none =>
          simpa using hm
      | some v =>
          by_cases hv : v.status = InvitationStatus.PENDING
          · have hvm : v ∈ db := List.mem_of_find?_eq_some hf
            have hne : inv.id ≠ v.id := fun h =>
              hs (by rw [eq_of_mem_of_id_eq hN hm hvm h]; exact hv)
            simp only [hv]
            simp
            exact mem_updateRow_of_id_ne hm hne
          · simp [hv]
            exact hm
  | resendOp now e iid t =>
      simp only [applyOp]
      unfold resend
      cases hf : get db iid t with
      | none =>
          simpa using hm
      | some v =>
          by_cases hv : v.status = InvitationStatus.PENDING
          · have hvm : v ∈ db := List.mem_of_find?_eq_some hf
            have hne : inv.id ≠ v.id := fun h =>
              hs (by rw [eq_of_mem_of_id_eq hN hm hvm h]; exact hv)
            simp only [hv]
            simp
            exact mem_updateRow_of_id_ne hm hne
          · simp [hv]
            exact hm
  | expireOp now =>
      simp only [applyOp]
      unfold expire_old_invitations
      have hE : expireMatch now inv = false := by
        unfold expireMatch
        simp [beq_eq_false_iff_ne.mpr hs]
      simp only
      exact List.mem_map.mpr ⟨inv, hm, by simp [hE]⟩

theorem map_id_updateRow (db : DB) (rid : Nat) (f : Invitation → Invitation)
    (hf : ∀ i, (f i).id = i.id) :
    (updateRow db rid f).map (fun i => i.id) = db.map (fun i => i.id) := by
  unfold updateRow
  induction db with
  | nil => rfl
  | cons x xs ih =>
      simp only [List.map_cons, ih]
      congr 1
      by_cases hc : x.id = rid
      · simp [hc, hf]
      · simp [hc]

theorem nodupIds_applyOp {db : DB} (op : Op) (hN : NodupIds db) (hF : opFresh db op) :
    NodupIds (applyOp db op) := by
  cases op with
  | createOp now e nid em t ib nm ci rg msg =>
      simp only [applyOp]
      unfold create
      cases hpe : get_pending_by_email db em t with
      | some v =>
          exact hN
      | none =>
          unfold NodupIds at hN ⊢
          simp only [List.map_append, List.map_cons, List.map_nil]
          rw [List.nodup_append]
          refine ⟨hN, List.nodup_singleton _, ?_⟩
          intro a ha hb
          simp at hb
          unfold opFresh at hF
          exact hF (hb ▸ ha)
  | acceptOp now tok uid =>
      simp only [applyOp]
      unfold accept
      cases hf : get_by_token db tok with
      | none =>
          exact hN
      | some v =>
          by_cases hv : v.status = InvitationStatus.PENDING
          · by_cases hex : v.expires_at < now
            · simp only [hv, hex]
              simp
              unfold NodupIds
              rw [map_id_updateRow]
              · exact hN
              · intro i
                rfl
            · simp only [hv, hex]
              simp
              unfold NodupIds
              rw [map_id_updateRow]
              · exact hN
              · intro i
                rfl
          · simp [hv]
            exact hN
  | revokeOp now iid t rb =>
      simp only [applyOp]
      unfold revoke
      cases hf : get db iid t with
      | none =>
          exact hN
      | some v =>
          by_cases hv : v.status = InvitationStatus.PENDING
          · simp only [hv]
            simp
            unfold NodupIds
            rw [map_id_updateRow]
            · exact hN
            · intro i
              rfl
          · simp [hv]
            exact hN
  | resendOp now e iid t =>
      simp only [applyOp]
      unfold resend
      cases hf : get db iid t with
      | none =>
          exact hN
      | some v =>
          by_cases hv : v.status = InvitationStatus.PENDING
          · simp only [hv]
            simp
            unfold NodupIds
            rw [map_id_updateRow]
            · exact hN
            · intro i
              rfl
          · simp [hv]
            exact hN
  | expireOp now =>
      simp only [applyOp]
      unfold expire_old_invitations
      simp only
      unfold NodupIds at hN ⊢
      rw [List.map_map]
      have hcomp : ((fun i => i.id) ∘ fun i =>
          if expireMatch now i then { i with status := InvitationStatus.EXPIRED } else i) =
          fun (i : Invitation) => i.id := by
        funext i
        by_cases hc : expireMatch now i
        · simp [hc]
        · simp [hc]
      rw [hcomp]
      exact hN

/-- C1: status transitions are monotonic and one-directional.  Under unique
primary keys and fresh `uuid4` draws, once a row's status is ACCEPTED,
EXPIRED or REVOKED, no sequence of `create`/`accept`/`revoke`/`resend`/
`expire_old_invitations` calls changes it again: the row survives every
operation byte-for-byte, and the only row carrying its primary key is the
row itself — in particular no operation returns it to PENDING. -/
theorem status_transitions_monotonic
    (db : DB) (ops : List Op) (hN : NodupIds db) (hF : FreshTrace db ops)
    (inv : Invitation) (hm : inv ∈ db) (hs : inv.status ≠ InvitationStatus.PENDING) :
    inv ∈ applyOps db ops ∧
    ∀ r ∈ applyOps db ops, r.id = inv.id → r = inv := by
  induction ops generalizing db with
  | nil =>
      exact ⟨hm, fun r hr hid => eq_of_mem_of_id_eq hN hr hm hid⟩
  | cons op ops ih =>
      cases hF with
      | cons _ _ _ hfresh htail =>
          exact ih (applyOp db op) (nodupIds_applyOp op hN hfresh) htail
            (applyOp_preserves_nonpending op hN hm hs)

theorem create_ok_spec
    (db : DB) (now : Int) (entropy : List Nat) (newId : Nat) (email : String)
    (tenant_id invited_by : Nat) (nm : Option String) (ci rg : Option (List Nat))
    (msg : Option String) (inv : Invitation) (raw : String) (db2 : DB)
    (hok : create db now entropy newId email tenant_id invited_by nm ci rg msg =
             (Except.ok (inv, raw), db2)) :
    get_pending_by_email db email tenant_id = none ∧
    inv = { id := newId, email := pyLower email, name := nm, tenant_id := tenant_id,
            client_ids := ci, role_group_ids := rg, status := InvitationStatus.PENDING,
            invited_by := invited_by, token_hash := hash_token (generate_token entropy),
            created_at := now,
            expires_at := now + days aurora_config.invitation_expiry_days,
            accepted_at := none, revoked_at := none, revoked_by := none,
            deleted_at := none, message := msg } ∧
    raw = generate_token entropy ∧ db2 = db ++ [inv] := by
  unfold create at hok
  cases hpe : get_pending_by_email db email tenant_id with
  | some v =>
      rw [hpe] at hok
      simp at hok
  | none =>
      rw [hpe] at hok
      simp only [Prod.mk.injEq, Except.ok.injEq] at hok
      obtain ⟨⟨hinv, hraw⟩, hdb⟩ := hok
      exact ⟨rfl, hinv.symm, hraw.symm, by rw [← hdb, hinv]⟩

theorem create_conflict_of_pending_exists
    (db : DB) (now : Int) (e : List Nat) (nid : Nat) (email : String)
    (tenant_id invited_by : Nat) (nm : Option String) (ci rg : Option (List Nat))
    (msg : Option String)
    (hex : ∃ p ∈ db, p.email = pyLower email ∧ p.tenant_id = tenant_id ∧
        p.status = InvitationStatus.PENDING ∧ p.deleted_at = none) :
    create db now e nid email tenant_id invited_by nm ci rg msg =
      (Except.error (ServiceError.conflict
        ("Pending invitation already exists for " ++ email)), db) := by
  have hsome : (get_pending_by_email db email tenant_id).isSome := by
    apply List.find?_isSome.mpr
    obtain ⟨p, hp, h1, h2, h3, h4⟩ := hex
    exact ⟨p, hp, by simp [h1, h2, h3, notDeleted, h4]⟩
  cases hpe : get_pending_by_email db email tenant_id with
  | none => rw [hpe] at hsome; simp at hsome
  | some v =>
      unfold create
      rw [hpe]

/-- C4: a successful `create` stores exactly the SHA-256 hex digest of the
raw token it returns, the raw token is the URL-safe base64 of the 32
configured entropy bytes (43 characters, never equal to the 64-character
stored hash), `expires_at` is the creation clock plus the 7-day TTL, the only
row inserted is the invitation itself (whose schema has no raw-token column),
and every persisted field other than `token_hash` is independent of the drawn
token. -/
theorem create_token_discipline
    (db : DB) (now : Int) (entropy : List Nat) (newId : Nat) (email : String)
    (tenant_id invited_by : Nat) (nm : Option String) (ci rg : Option (List Nat))
    (msg : Option String) (inv : Invitation) (raw : String) (db2 : DB)
    (hlen : entropy.length = aurora_config.token_length)
    (hok : create db now entropy newId email tenant_id invited_by nm ci rg msg =
             (Except.ok (inv, raw), db2)) :
    inv.token_hash = hash_token raw ∧
    raw = generate_token entropy ∧
    raw.length = 43 ∧
    inv.token_hash.length = 64 ∧
    inv.token_hash ≠ raw ∧
    inv.created_at = now ∧
    inv.expires_at = now + days aurora_config.invitation_expiry_days ∧
    db2 = db ++ [inv] ∧
    inv.email = pyLower email ∧ inv.name = nm ∧ inv.message = msg ∧
    (∀ entropy2 inv2 raw2 db3, entropy2.length = aurora_config.token_length →
       create db now entropy2 newId email tenant_id invited_by nm ci rg msg =
         (Except.ok (inv2, raw2), db3) →
       inv2 = { inv with token_hash := inv2.token_hash }) := by
  obtain ⟨hpe, hinv, hraw, hdb⟩ :=
    create_ok_spec db now entropy newId email tenant_id invited_by nm ci rg msg
      inv raw db2 hok
  subst hinv
  subst hraw
  have hrawlen : (generate_token entropy).length = 43 := generate_token_length hlen
  have hhashlen : (hash_token (generate_token entropy)).length = 64 :=
    sha256Hex_length _
  refine ⟨rfl, rfl, hrawlen, hhashlen, ?_, rfl, rfl, hdb, rfl, rfl, rfl, ?_⟩
  · intro h
    have := congrArg String.length h
    rw [hhashlen, hrawlen] at this
    exact absurd this (by decide)
  · intro entropy2 inv2 raw2 db3 _ hok2
    obtain ⟨_, hinv2, _, _⟩ :=
      create_ok_spec db now entropy2 newId email tenant_id invited_by nm ci rg msg
        inv2 raw2 db3 hok2
    subst hinv2
    rfl

/-- C5: while a PENDING, non-deleted invitation exists for a tenant and a
lowercased email, `create` for the same pair — whatever the letter case of
the email — fails with the `Conflict` error and inserts nothing; hence two
sequential creates for the same tenant and case-insensitive email give one
success and one `Conflict`. -/
theorem create_conflict_on_duplicate_pending
    (db : DB) (now1 now2 : Int) (e1 e2 : List Nat) (id1 id2 : Nat)
    (email1 email2 : String) (tenant_id invited_by1 invited_by2 : Nat)
    (name1 name2 : Option String) (ci1 ci2 rg1 rg2 : Option (List Nat))
    (msg1 msg2 : Option String) :
    ((∃ p ∈ db, p.email = pyLower email2 ∧ p.tenant_id = tenant_id ∧
        p.status = InvitationStatus.PENDING ∧ p.deleted_at = none) →
      create db now2 e2 id2 email2 tenant_id invited_by2 name2 ci2 rg2 msg2 =
        (Except.error (ServiceError.conflict
          ("Pending invitation already exists for " ++ email2)), db)) ∧
    (∀ inv1 raw1 db1,
      create db now1 e1 id1 email1 tenant_id invited_by1 name1 ci1 rg1 msg1 =
        (Except.ok (inv1, raw1), db1) →
      pyLower email2 = pyLower email1 →
      create db1 now2 e2 id2 email2 tenant_id invited_by2 name2 ci2 rg2 msg2 =
        (Except.error (ServiceError.conflict
          ("Pending invitation already exists for " ++ email2)), db1)) := by
  constructor
  · intro hex
    exact create_conflict_of_pending_exists db now2 e2 id2 email2 tenant_id
      invited_by2 name2 ci2 rg2 msg2 hex
  · intro inv1 raw1 db1 hok1 hcase
    obtain ⟨_, hinv1, _, hdb1⟩ :=
      create_ok_spec db now1 e1 id1 email1 tenant_id invited_by1 name1 ci1 rg1 msg1
        inv1 raw1 db1 hok1
    apply create_conflict_of_pending_exists
    refine ⟨inv1, ?_, ?_, ?_, ?_, ?_⟩
    · rw [hdb1]
      exact List.mem_append.mpr (Or.inr (List.mem_singleton.mpr rfl))
    · rw [hinv1, hcase]
    · rw [hinv1]
    · rw [hinv1]
    · rw [hinv1]

/-- C7: `accept` takes a token and no tenant — acceptance is token-scoped.
For any PENDING, unexpired, non-deleted invitation found by its raw token,
whatever its `tenant_id`, `accept` succeeds, commits status ACCEPTED with
`accepted_at` set to the clock, and returns the updated row; a second
`accept` with the same token then fails with `InvalidState` and the message
naming the accepted status, changing nothing. -/
theorem accept_token_scoped_then_invalid_state
    (db : DB) (now now2 : Int) (token : String) (user_id user_id2 : Nat)
    (inv : Invitation)
    (hfind : get_by_token db token = some inv)
    (hp : inv.status = InvitationStatus.PENDING)
    (hexp : ¬ inv.expires_at < now) :
    accept db now token user_id =
      (Except.ok { inv with status := InvitationStatus.ACCEPTED, accepted_at := some now },
       updateRow db inv.id
         (fun i => { i with status := InvitationStatus.ACCEPTED, accepted_at := some now })) ∧
    accept (accept db now token user_id).2 now2 token user_id2 =
      (Except.error (ServiceError.invalidState "Invitation is accepted"),
       (accept db now token user_id).2) := by
  have h1 : accept db now token user_id =
      (Except.ok { inv with status := InvitationStatus.ACCEPTED, accepted_at := some now },
       updateRow db inv.id
         (fun i => { i with status := InvitationStatus.ACCEPTED, accepted_at := some now })) := by
    unfold accept
    rw [hfind]
    simp [hp, hexp]
  have hfind2 : get_by_token (accept db now token user_id).2 token =
      some { inv with status := InvitationStatus.ACCEPTED, accepted_at := some now } := by
    rw [h1]
    show (db.map fun i => if i.id == inv.id
            then { i with status := InvitationStatus.ACCEPTED, accepted_at := some now }
            else i).find?
          (fun i => i.token_hash == hash_token token && notDeleted i) = _
    rw [find?_map_of_pred_eq]
    · have : db.find? (fun i => i.token_hash == hash_token token && notDeleted i) =
          some inv := hfind
      rw [this]
      simp
    · intro x
      by_cases hx : x.id = inv.id
      · simp [hx, notDeleted]
      · simp [hx]
  have hmsg : pyLower InvitationStatus.ACCEPTED.value = "accepted" := by decide
  refine ⟨h1, ?_⟩
  set db2 := (accept db now token user_id).2 with hdb2
  unfold accept
  rw [hfind2]
  simp [hmsg]

/-- C6: `resend` on a PENDING invitation overwrites `token_hash` on the same
row with the hash of the freshly generated token, resets `expires_at` to the
clock plus the TTL, and leaves the status PENDING; afterwards — the fresh
hash differing from the old one, which no other row carries — the old raw
token no longer resolves and `accept` with it fails with the `NotFound`
error. -/
theorem resend_rotates_token_old_token_invalid
    (db : DB) (now now2 : Int) (entropy : List Nat)
    (invitation_id tenant_id user_id : Nat) (old_token : String) (inv : Invitation)
    (hget : get db invitation_id tenant_id = some inv)
    (hp : inv.status = InvitationStatus.PENDING)
    (huniq : ∀ r ∈ db, r.token_hash = hash_token old_token → r.id = inv.id)
    (hcoll : hash_token (generate_token entropy) ≠ hash_token old_token) :
    resend db now entropy invitation_id tenant_id =
      (Except.ok ({ inv with token_hash := hash_token (generate_token entropy),
                             expires_at := now + days aurora_config.invitation_expiry_days },
                  generate_token entropy),
       updateRow db inv.id
         (fun i => { i with token_hash := hash_token (generate_token entropy),
                            expires_at := now + days aurora_config.invitation_expiry_days })) ∧
    ({ inv with token_hash := hash_token (generate_token entropy),
                expires_at := now + days aurora_config.invitation_expiry_days }).status =
      InvitationStatus.PENDING ∧
    get_by_token (resend db now entropy invitation_id tenant_id).2 old_token = none ∧
    accept (resend db now entropy invitation_id tenant_id).2 now2 old_token user_id =
      (Except.error (ServiceError.notFound "Invalid invitation token"),
       (resend db now entropy invitation_id tenant_id).2) := by
  have h1 : resend db now entropy invitation_id tenant_id =
      (Except.ok ({ inv with token_hash := hash_token (generate_token entropy),
                             expires_at := now + days aurora_config.invitation_expiry_days },
                  generate_token entropy),
       updateRow db inv.id
         (fun i => { i with token_hash := hash_token (generate_token entropy),
                            expires_at := now + days aurora_config.invitation_expiry_days })) := by
    unfold resend
    rw [hget]
    simp [hp]
  have hnone : get_by_token (resend db now entropy invitation_id tenant_id).2 old_token =
      none := by
    rw [h1]
    show (db.map fun i => if i.id == inv.id
            then { i with token_hash := hash_token (generate_token entropy),
                          expires_at := now + days aurora_config.invitation_expiry_days }
            else i).find?
          (fun i => i.token_hash == hash_token old_token && notDeleted i) = none
    apply List.find?_eq_none.mpr
    intro x hx
    rcases List.mem_map.mp hx with ⟨y, hy, rfl⟩
    by_cases hyid : y.id = inv.id
    · simp only [hyid, beq_self_eq_true, if_true]
      intro hcontra
      rw [Bool.and_eq_true] at hcontra
      exact hcoll (by simpa using hcontra.1)
    · simp only [beq_eq_false_iff_ne.mpr hyid, Bool.false_eq_true, if_false]
      intro hcontra
      rw [Bool.and_eq_true] at hcontra
      exact hyid (huniq y hy (by simpa using hcontra.1))
  refine ⟨h1, hp, hnone, ?_⟩
  unfold accept
  rw [hnone]

/-- C8: whenever `list` returns a result, the result's `page_size` is the
request clamped to the configured maximum of 100, its `page` is the request
clamped to a minimum of 1, its `total` is the pre-pagination count of the
matching rows, its `items` are that page's slice of the ordered result set,
and its page count is `⌈total / page_size⌉` when `total > 0` — stated by the
ceiling's defining bounds `total ≤ pages·page_size < total + page_size` —
and `0` when `total = 0`. -/
theorem list_clamps_and_pages
    (db : DB) (tenant_id : Nat) (filt : Option InvitationFilter)
    (page page_size : Int) (r : InvitationList)
    (hok : list db tenant_id filt page page_size = Except.ok r) :
    r.page_size = effPageSize page_size ∧
    r.page = effPage page ∧
    r.page_size ≤ aurora_config.max_page_size ∧
    1 ≤ r.page ∧
    r.total = ((baseRows db tenant_id filt).length : Int) ∧
    r.items = pageItems (sortByCreatedDesc (baseRows db tenant_id filt)) page page_size ∧
    (0 < r.total → r.total ≤ r.pages * r.page_size ∧
                   (r.pages - 1) * r.page_size < r.total) ∧
    (r.total = 0 → r.pages = 0) := by
  unfold list at hok
  simp only at hok
  split at hok
  · exact absurd hok (by simp)
  · next hneg =>
      split at hok
      · exact absurd hok (by simp)
      · next hzero =>
          have hr : _ = r := Except.ok.inj hok
          subst hr
          push_neg at hneg
          refine ⟨rfl, rfl, min_le_right _ _, le_max_right _ _, ?_, rfl, ?_, ?_⟩
          · show ((sortByCreatedDesc (baseRows db tenant_id filt)).length : Int) = _
            rw [sortByCreatedDesc_length]
          · intro htot
            have htot2 : 0 < ((sortByCreatedDesc (baseRows db tenant_id filt)).length : Int) :=
              htot
            have hps0 : effPageSize page_size ≠ 0 := fun h => hzero ⟨htot2, h⟩
            have hpos : 0 < effPageSize page_size := lt_of_le_of_ne hneg.1 (Ne.symm hps0)
            show ((sortByCreatedDesc (baseRows db tenant_id filt)).length : Int) ≤ _ ∧ _
            simp only [if_pos htot2]
            set t := ((sortByCreatedDesc (baseRows db tenant_id filt)).length : Int) with ht
            set p := effPageSize page_size with hp
            rw [Int.fdiv_eq_ediv _ hpos.le]
            have hdm := Int.ediv_add_emod (t + p - 1) p
            have hm0 : 0 ≤ (t + p - 1) % p := Int.emod_nonneg _ hpos.ne'
            have hm1 : (t + p - 1) % p < p := Int.emod_lt_of_pos _ hpos
            constructor
            · nlinarith [hdm, hm0, hm1]
            · nlinarith [hdm, hm0, hm1]
          · intro htot
            have htot2 : ((sortByCreatedDesc (baseRows db tenant_id filt)).length : Int) = 0 :=
              htot
            simp [htot2]

/-- C10: `list` never clamps `page_size` upward.  With `page_size = 0` and at
least one matching invitation, the page-count computation divides by zero and
the call surfaces Python's untyped `ZeroDivisionError` instead of a result or
a taxonomy failure; with a negative `page_size` the clamped page size stays
negative, the computed offset is negative from page 2 on, and the call again
fails outside the documented taxonomy. -/
theorem list_zero_page_size_divides_by_zero
    (db : DB) (tenant_id : Nat) (filt : Option InvitationFilter)
    (page page_size : Int) :
    (0 < (baseRows db tenant_id filt).length →
      list db tenant_id filt page 0 = Except.error ServiceError.zeroDivision) ∧
    (page_size < 0 →
      effPageSize page_size < 0 ∧
      (2 ≤ page → listOffset page page_size < 0) ∧
      list db tenant_id filt page page_size = Except.error ServiceError.negativeStoreArg ∧
      ServiceError.negativeStoreArg.documented = false) := by
  constructor
  · intro h
    have hlen : (0:Int) < ((sortByCreatedDesc (baseRows db tenant_id filt)).length : Int) := by
      rw [sortByCreatedDesc_length]
      exact_mod_cast h
    have hps : effPageSize 0 = 0 := by decide
    unfold list
    simp only [hps]
    rw [if_neg (by simp), if_pos ⟨hlen, by trivial⟩]
  · intro hneg
    have heff : effPageSize page_size < 0 :=
      lt_of_le_of_lt (min_le_left _ _) hneg
    refine ⟨heff, ?_, ?_, rfl⟩
    · intro hpage
      unfold listOffset
      rw [show effPage page = page from max_eq_left (by omega)]
      exact mul_neg_of_pos_of_neg (by omega) heff
    · unfold list
      simp only
      rw [if_pos (Or.inl heff)]

/-- The two rows of the C9 pagination counterexample: same tenant, same
`created_at`, distinct primary keys. -/
def inv9a : Invitation :=
  { id := 1, email := "a@x.com", name := none, tenant_id := 1, client_ids := none,
    role_group_ids := none, status := InvitationStatus.PENDING, invited_by := 9,
    token_hash := "hash-a", created_at := 100, expires_at := 700, accepted_at := none,
    revoked_at := none, revoked_by := none, deleted_at := none, message := none }

/-- Second counterexample row, equal `created_at` to `inv9a`. -/
def inv9b : Invitation :=
  { id := 2, email := "b@x.com", name := none, tenant_id := 1, client_ids := none,
    role_group_ids := none, status := InvitationStatus.PENDING, invited_by := 9,
    token_hash := "hash-b", created_at := 100, expires_at := 700, accepted_at := none,
    revoked_at := none, revoked_by := none, deleted_at := none, message := none }

/-- The counterexample database. -/
def db9 : DB := [inv9a, inv9b]

/-- C9 fails on the code: the query orders by `created_at` descending only,
with no secondary key, so for two rows with equal timestamps both orders
satisfy everything `list` asks of the store.  If the store returns them in
different orders on the two page-1-sized page queries — which the contract
permits — the concatenated pages repeat `inv9a` and never show `inv9b`:
pagination is not deterministic and does not reproduce the result set. -/
theorem list_tie_order_pagination_counterexample :
    OrderByCreatedDesc (baseRows db9 1 none) [inv9a, inv9b] ∧
    OrderByCreatedDesc (baseRows db9 1 none) [inv9b, inv9a] ∧
    pageItems [inv9a, inv9b] 1 1 ++ pageItems [inv9b, inv9a] 2 1 = [inv9a, inv9a] ∧
    inv9b ∉ pageItems [inv9a, inv9b] 1 1 ++ pageItems [inv9b, inv9a] 2 1 ∧
    ¬ (pageItems [inv9a, inv9b] 1 1 ++ pageItems [inv9b, inv9a] 2 1).Perm
        (baseRows db9 1 none) := by
  refine ⟨⟨?_, ?_⟩, ⟨?_, ?_⟩, ?_, ?_, ?_⟩ <;> decide

/-! ### Concrete witness data -/

/-- A PENDING sample row whose token is `"tok1"` and which expires at 604800. -/
def wRowPending : Invitation :=
  { id := 1, email := "a@x.com", name := none, tenant_id := 1, client_ids := none,
    role_group_ids := none, status := InvitationStatus.PENDING, invited_by := 9,
    token_hash := sha256Hex "tok1", created_at := 0, expires_at := 604800,
    accepted_at := none, revoked_at := none, revoked_by := none, deleted_at := none,
    message := none }

/-- A REVOKED sample row whose token is `"tok2"`. -/
def wRowRevoked : Invitation :=
  { id := 2, email := "r@x.com", name := none, tenant_id := 1, client_ids := none,
    role_group_ids := none, status := InvitationStatus.REVOKED, invited_by := 9,
    token_hash := sha256Hex "tok2", created_at := 0, expires_at := 604800,
    accepted_at := none, revoked_at := some 50, revoked_by := some 4, deleted_at := none,
    message := none }

/-- An ACCEPTED sample row whose token is `"tokc1"`. -/
def c1row : Invitation :=
  { id := 1, email := "c@x.com", name := none, tenant_id := 1, client_ids := none,
    role_group_ids := none, status := InvitationStatus.ACCEPTED, invited_by := 9,
    token_hash := sha256Hex "tokc1", created_at := 0, expires_at := 604800,
    accepted_at := some 10, revoked_at := none, revoked_by := none, deleted_at := none,
    message := none }

/-- A trace touching all five operations against `[c1row]`. -/
def c1ops : List Op :=
  [Op.acceptOp 700000 "tokc1" 3, Op.revokeOp 700001 1 1 4, Op.resendOp 700002 [1] 1 1,
   Op.expireOp 700003, Op.createOp 700004 [0] 2 "b@x.com" 1 9 none none none none]

/-- The raw token `create` returns for 32 zero entropy bytes. -/
def c4raw : String := generate_token (List.replicate 32 0)

/-- The invitation `create` inserts for the `c4raw` draw. -/
def c4inv : Invitation :=
  { id := 1, email := pyLower "A@x.com", name := none, tenant_id := 1, client_ids := none,
    role_group_ids := none, status := InvitationStatus.PENDING, invited_by := 9,
    token_hash := hash_token c4raw, created_at := 0,
    expires_at := 0 + days aurora_config.invitation_expiry_days, accepted_at := none,
    revoked_at := none, revoked_by := none, deleted_at := none, message := none }

/-- A PENDING sample row for the duplicate-create conflict. -/
def c5row : Invitation :=
  { id := 1, email := "a@x.com", name := none, tenant_id := 1, client_ids := none,
    role_group_ids := none, status := InvitationStatus.PENDING, invited_by := 9,
    token_hash := "hash-5", created_at := 0, expires_at := 604800, accepted_at := none,
    revoked_at := none, revoked_by := none, deleted_at := none, message := none }

/-- A PENDING sample row whose token is `"tok-old"`, about to be resent. -/
def c6row : Invitation :=
  { id := 1, email := "o@x.com", name := none, tenant_id := 1, client_ids := none,
    role_group_ids := none, status := InvitationStatus.PENDING, invited_by := 9,
    token_hash := sha256Hex "tok-old", created_at := 0, expires_at := 604800,
    accepted_at := none, revoked_at := none, revoked_by := none, deleted_at := none,
    message := none }

/-- A sample row for the pagination witnesses. -/
def c8row : Invitation :=
  { id := 1, email := "p@x.com", name := none, tenant_id := 1, client_ids := none,
    role_group_ids := none, status := InvitationStatus.PENDING, invited_by := 9,
    token_hash := "hash-8", created_at := 100, expires_at := 604800, accepted_at := none,
    revoked_at := none, revoked_by := none, deleted_at := none, message := none }

/-- The result `list` returns for `[c8row]`, page 1, page size 2. -/
def r8 : InvitationList :=
  { items := [c8row], total := 1, page := 1, page_size := 2, pages := 1 }

/-! ### Witnesses -/

/-- Witness: the monotonicity theorem applied to an ACCEPTED row and a trace
exercising all five operations. -/
theorem status_transitions_monotonic_witness :
    c1row ∈ applyOps [c1row] c1ops :=
  (status_transitions_monotonic [c1row] c1ops (by unfold NodupIds; decide)
    (by
      refine FreshTrace.cons _ _ _ (by unfold opFresh; decide) ?_
      refine FreshTrace.cons _ _ _ (by unfold opFresh; decide) ?_
      refine FreshTrace.cons _ _ _ (by unfold opFresh; decide) ?_
      refine FreshTrace.cons _ _ _ (by unfold opFresh; decide) ?_
      refine FreshTrace.cons _ _ _ (by unfold opFresh; decide) ?_
      exact FreshTrace.nil _)
    c1row (by decide) (by decide)).1

/-- Witness: accepting `"tok1"` at clock 700000, past expiry 604800, commits
EXPIRED and fails with `Expired`. -/
theorem accept_expired_persists_then_fails_witness :
    accept [wRowPending] 700000 "tok1" 5 =
      (Except.error (ServiceError.expired "Invitation has expired"),
       updateRow [wRowPending] wRowPending.id
         (fun i => { i with status := InvitationStatus.EXPIRED })) ∧
    { wRowPending with status := InvitationStatus.EXPIRED } ∈
      (accept [wRowPending] 700000 "tok1" 5).2 :=
  (fun h => ⟨h.1, h.2.1⟩)
    (accept_expired_persists_then_fails [wRowPending] 700000 "tok1" 5 wRowPending
      (by decide) (by decide) (by decide))

/-- Witness: accept, revoke and resend on a REVOKED row each fail with
`InvalidState` and leave the database untouched. -/
theorem non_pending_operations_fail_without_mutation_witness :
    accept [wRowRevoked] 1 "tok2" 5 =
      (Except.error (ServiceError.invalidState
        ("Invitation is " ++ pyLower wRowRevoked.status.value)), [wRowRevoked]) ∧
    revoke [wRowRevoked] 2 2 1 7 =
      (Except.error (ServiceError.invalidState
        ("Cannot revoke " ++ pyLower wRowRevoked.status.value ++ " invitation")),
       [wRowRevoked]) ∧
    resend [wRowRevoked] 3 [8] 2 1 =
      (Except.error (ServiceError.invalidState
        ("Cannot resend " ++ pyLower wRowRevoked.status.value ++ " invitation")),
       [wRowRevoked]) := by
  have h := non_pending_operations_fail_without_mutation [wRowRevoked] 1 2 3 "tok2" 5
    2 1 7 [8] wRowRevoked (by decide)
  exact ⟨h.1 (by decide), h.2.1 (by decide), h.2.2 (by decide)⟩

/-- Witness: a concrete `create` with 32 zero entropy bytes obeys the token
discipline. -/
theorem create_token_discipline_witness :
    c4raw.length = 43 ∧ c4inv.token_hash.length = 64 ∧ c4inv.token_hash ≠ c4raw ∧
    c4inv.expires_at = 0 + days aurora_config.invitation_expiry_days := by
  have h := create_token_discipline [] 0 (List.replicate 32 0) 1 "A@x.com" 1 9
    none none none none c4inv c4raw [c4inv] (by decide) (by decide)
  obtain ⟨h1, h2, h3, h4, h5, h6, h7, h8⟩ := h
  exact ⟨h3, h4, h5, h7⟩

/-- Witness: with a pending invitation for `a@x.com` in place, `create` for
`A@X.com` in the same tenant fails with `Conflict` and inserts nothing. -/
theorem create_conflict_on_duplicate_pending_witness :
    create [c5row] 5 [7] 2 "A@X.com" 1 9 none none none none =
      (Except.error (ServiceError.conflict
        ("Pending invitation already exists for " ++ "A@X.com")), [c5row]) :=
  (create_conflict_on_duplicate_pending [c5row] 0 5 [6] [7] 1 2 "a@x.com" "A@X.com"
    1 9 9 none none none none none none none none).1
    ⟨c5row, by decide, by decide, by decide, by decide, by decide⟩

/-- Witness: after resending, the old raw token `"tok-old"` resolves to
nothing and `accept` with it fails `NotFound`. -/
theorem resend_rotates_token_old_token_invalid_witness :
    get_by_token (resend [c6row] 50 [0] 1 1).2 "tok-old" = none ∧
    accept (resend [c6row] 50 [0] 1 1).2 60 "tok-old" 5 =
      (Except.error (ServiceError.notFound "Invalid invitation token"),
       (resend [c6row] 50 [0] 1 1).2) :=
  (fun h => ⟨h.2.2.1, h.2.2.2⟩)
    (resend_rotates_token_old_token_invalid [c6row] 50 60 [0] 1 1 5 "tok-old" c6row
      (by decide) (by decide) (by decide) (by decide))

/-- Witness: accepting `"tok1"` before expiry succeeds and commits ACCEPTED;
a second accept with the same token fails `InvalidState` with message
naming the accepted state. -/
theorem accept_token_scoped_then_invalid_state_witness :
    accept [wRowPending] 100 "tok1" 5 =
      (Except.ok { wRowPending with status := InvitationStatus.ACCEPTED,
                                    accepted_at := some 100 },
       updateRow [wRowPending] wRowPending.id
         (fun i => { i with status := InvitationStatus.ACCEPTED, accepted_at := some 100 })) ∧
    accept (accept [wRowPending] 100 "tok1" 5).2 200 "tok1" 6 =
      (Except.error (ServiceError.invalidState "Invitation is accepted"),
       (accept [wRowPending] 100 "tok1" 5).2) :=
  accept_token_scoped_then_invalid_state [wRowPending] 100 200 "tok1" 5 6 wRowPending
    (by decide) (by decide) (by decide)

/-- Witness: a concrete one-row listing with page size 2 obeys the clamp,
count and page-count properties. -/
theorem list_clamps_and_pages_witness :
    r8.page_size = effPageSize 2 ∧ r8.page = effPage 1 ∧
    r8.total = ((baseRows [c8row] 1 none).length : Int) ∧
    r8.items = pageItems (sortByCreatedDesc (baseRows [c8row] 1 none)) 1 2 ∧
    r8.total ≤ r8.pages * r8.page_size ∧ (r8.pages - 1) * r8.page_size < r8.total := by
  have h := list_clamps_and_pages [c8row] 1 none 1 2 r8 (by decide)
  obtain ⟨h1, h2, h3, h4, h5, h6, h7, h8⟩ := h
  obtain ⟨ha, hb⟩ := h7 (by decide)
  exact ⟨h1, h2, h5, h6, ha, hb⟩

/-- Witness: listing one matching row with page size 0 raises the division by
zero, and page size −5 at page 2 yields a negative offset and an
out-of-taxonomy failure. -/
theorem list_zero_page_size_divides_by_zero_witness :
    list [c8row] 1 none 2 0 = Except.error ServiceError.zeroDivision ∧
    effPageSize (-5) < 0 ∧ listOffset 2 (-5) < 0 ∧
    list [c8row] 1 none 2 (-5) = Except.error ServiceError.negativeStoreArg ∧
    ServiceError.negativeStoreArg.documented = false := by
  have h := list_zero_page_size_divides_by_zero [c8row] 1 none 2 (-5)
  obtain ⟨hA, hB⟩ := h
  obtain ⟨hb1, hb2, hb3, hb4⟩ := hB (by decide)
  exact ⟨hA (by decide), hb1, hb2 (by decide), hb3, hb4⟩

end Aurora
